import Mathlib

/-!
Verification of the IRon message-orchestration pipeline (Go repository
`iagomussel/IRon`) against its natural-language specification.

The development shallowly embeds the relevant Go code:

* `internal/ir/ir.go` — the Action Packet, the Dual-Output Response, the
  custom `Response.UnmarshalJSON`, and `Packet.Validate`;
* `internal/router/router.go` — the deterministic router;
* the tool registry (`Registry.Get` with exact / alias / fuzzy-substring
  tiers) from `internal/tools`;
* `cmd/agent/main.go` — `handleMessage`, `parseResponse`,
  `processResponse`, `executePacket`, and the continuation loop;
* `internal/scheduler/tool.go` — the `schedule` tool's `Run`.

External collaborators (the JSON syntax parser of `encoding/json`, the
`codex` backend subprocess, the filesystem, wall-clock time, the shell,
the adapter transport and the persistent job store) are modelled as
abstract parameters collected in environment structures; every observable
effect of the pipeline (backend invocation, adapter send, session-store
write, scheduler query) is recorded in an explicit event trace.

JSON documents are modelled at the value level (`JVal`); strings are Lean
`String`s and Go's byte-level helpers (`ToLower`, `TrimSpace`, `SplitN`,
`Fields`, `Contains`) are re-implemented over character lists so that all
definitions evaluate by `decide` / `rfl`.
-/

/-! ## String helpers (models of Go `strings` functions) -/

/-- Model of `strings.ToLower` (ASCII-adequate: `Char.toLower`). -/
def lowerStr (s : String) : String := ⟨s.data.map Char.toLower⟩

/-- List-level check that the first list is a leading segment of the second. -/
def isPrefixL : List Char → List Char → Bool
  | [], _ => true
  | _ :: _, [] => false
  | a :: as, b :: bs => a == b && isPrefixL as bs

/-- Model of `strings.HasPrefix s pre`. -/
def hasPre (s pre : String) : Bool := isPrefixL pre.data s.data

/-- List-level check that `sub` occurs inside `s` (model of `strings.Contains`). -/
def containsL (s sub : List Char) : Bool :=
  match s with
  | [] => sub.isEmpty
  | _ :: t => isPrefixL sub s || containsL t sub

/-- Model of `strings.Contains s sub`. -/
def strContains (s sub : String) : Bool := containsL s.data sub.data

/-- Model of `strings.TrimSpace` (drop whitespace at both ends). -/
def trimStr (s : String) : String :=
  ⟨(s.data.dropWhile Char.isWhitespace).reverse.dropWhile Char.isWhitespace |>.reverse⟩

/-- Split a character list at the first occurrence of the separator list;
`none` when the separator does not occur.  List-level model of
`strings.SplitN s sep 2` (which yields two parts exactly when `sep` occurs). -/
def splitFirstL (s sep : List Char) : Option (List Char × List Char) :=
  match s with
  | [] => none
  | c :: t =>
    if isPrefixL sep s then some ([], s.drop sep.length)
    else match splitFirstL t sep with
         | some (a, b) => some (c :: a, b)
         | none => none

/-- Model of `strings.SplitN s sep 2`: `some (before, after)` when `sep`
occurs in `s`, otherwise `none` (Go then returns the single part `[s]`). -/
def splitFirst (s sep : String) : Option (String × String) :=
  match splitFirstL s.data sep.data with
  | some (a, b) => some (⟨a⟩, ⟨b⟩)
  | none => none

/-- Model of `strings.Fields`: split on runs of whitespace, no empty fields. -/
def fieldsL : List Char → List (List Char)
  | [] => []
  | c :: t =>
    if c.isWhitespace then fieldsL t
    else
      match fieldsL t with
      | [] => [[c]]
      | w :: ws =>
        -- a new word starts after whitespace; detect via the original list
        match t with
        | [] => [[c]]
        | d :: _ => if d.isWhitespace then [c] :: w :: ws else (c :: w) :: ws

/-- String-level `strings.Fields`. -/
def fieldsStr (s : String) : List String := (fieldsL s.data).map (⟨·⟩)

/-- Drop the first `n` characters (model of Go slicing `s[n:]` on ASCII data). -/
def strDrop (s : String) (n : Nat) : String := ⟨s.data.drop n⟩

/-- Model of `strings.TrimPrefix s pre`. -/
def trimPre (s pre : String) : String :=
  if hasPre s pre then strDrop s pre.data.length else s

/-! ## JSON value model

`encoding/json` documents are modelled at the value level.  An object is a
key/value list; Go's `map[string]json.RawMessage` view of an object is
modelled by first-match lookup (JSON objects produced by the backend are
assumed key-unique, as Go's map collapses duplicates). -/

/-- A JSON value.  Numbers are rationals (no floating-point arithmetic is
performed anywhere in the modelled code; numeric fields are only stored and
compared). -/
inductive JVal where
  | null
  | bool (b : Bool)
  | num (q : Rat)
  | str (s : String)
  | arr (xs : List JVal)
  | obj (fields : List (String × JVal))

/-- First-match lookup in a JSON object's field list (Go map indexing). -/
def lookupJ : List (String × JVal) → String → Option JVal
  | [], _ => none
  | (k, v) :: t, key => if k = key then some v else lookupJ t key

/-! ## `internal/ir/ir.go` — data model, decode, validation -/

/-- `ir.ToolRequest`: tool name plus opaque argument payload.  The
`json.RawMessage` bytes are modelled as `Option JVal`: `none` is the nil
message of an absent `args` field (unmarshalling it is an error), while a
present field holds its parsed value — in particular `some JVal.null` is
the literal `null` document, which unmarshals into a nil map without
error. -/
structure ToolRequest where
  name : String
  args : Option JVal

/-- `ir.Packet`, the Action Packet. -/
structure Packet where
  action : String
  intent : String
  risk : String
  whenSpec : String      -- source field `When` (json tag "when")
  tools : List ToolRequest
  confidence : Rat

/-- `ir.Response`, the Dual-Output Response. -/
structure Response where
  reply : String
  needProcess : Bool
  ir : Option Packet

/-- The zero value of `ir.Packet`. -/
def zeroPacket : Packet := ⟨"", "", "", "", [], 0⟩

/-- The zero value of `ir.Response`. -/
def zeroResponse : Response := ⟨"", false, none⟩

/-- Action enum constants from `ir.go`. -/
def actionActNow : String := "act_now"
def actionSchedule : String := "schedule"
def actionAsk : String := "ask"
def actionDefer : String := "defer"
def actionListReminders : String := "list_reminders"

/-- Risk enum constants from `ir.go`. -/
def riskNone : String := "none"
def riskLow : String := "low"
def riskMedium : String := "medium"
def riskHigh : String := "high"

/-- `Packet.Validate` from `ir.go`: the `action` switch runs first and
returns `invalid action` for anything outside the five-value enum; then the
`risk` switch accepts the four levels or the empty string.  `none` models a
`nil` error. -/
def Packet.validate (p : Packet) : Option String :=
  if p.action = actionActNow ∨ p.action = actionSchedule ∨ p.action = actionAsk ∨
     p.action = actionDefer ∨ p.action = actionListReminders then
    if p.risk = riskNone ∨ p.risk = riskLow ∨ p.risk = riskMedium ∨
       p.risk = riskHigh ∨ p.risk = "" then
      none
    else some ("invalid risk: " ++ p.risk)
  else some ("invalid action: " ++ p.action)

/-- Decode a JSON value into a string field: `json.Unmarshal(v, &s)`
succeeds only on a JSON string; the caller discards the error, so on a type
mismatch the previous field value survives. -/
def getStrField (fs : List (String × JVal)) (key : String) (prev : String) : String :=
  match lookupJ fs key with
  | some (JVal.str s) => s
  | _ => prev

/-- Decode a JSON value into a numeric field, same error-discarding rule. -/
def getNumField (fs : List (String × JVal)) (key : String) (prev : Rat) : Rat :=
  match lookupJ fs key with
  | some (JVal.num q) => q
  | _ => prev

/-- Standard struct decode of one `ir.ToolRequest` element.  A non-object
element is a type error; the discarded error leaves the zero element that
Go allocated for the slice slot (name empty, nil raw message). -/
def decodeToolRequest (v : JVal) : ToolRequest :=
  match v with
  | JVal.obj g => ⟨getStrField g "name" "", lookupJ g "args"⟩
  | _ => ⟨"", none⟩

/-- Decode the `tools` field of a packet (errors discarded). -/
def getToolsField (fs : List (String × JVal)) (prev : List ToolRequest) : List ToolRequest :=
  match lookupJ fs "tools" with
  | some (JVal.arr xs) => xs.map decodeToolRequest
  | some JVal.null => []
  | _ => prev

/-- Standard struct decode of `ir.Packet` into an existing value (the
caller `_ = json.Unmarshal(v, &r.IR)` discards any error, so mismatched
fields keep their previous contents). -/
def unmarshalPacketInto (p : Packet) (fs : List (String × JVal)) : Packet :=
  { action := getStrField fs "action" p.action
    intent := getStrField fs "intent" p.intent
    risk := getStrField fs "risk" p.risk
    whenSpec := getStrField fs "when" p.whenSpec
    tools := getToolsField fs p.tools
    confidence := getNumField fs "confidence" p.confidence }

/-- Decode the `ir` field: `json.Unmarshal(v, &r.IR)` on a `*Packet` sets
the pointer to `nil` on JSON `null` and allocates/fills on an object.  On
any other value the decoder has already allocated the packet (a nil
pointer is made non-nil before the type mismatch is noticed), so with the
error discarded a previously-nil pointer ends up at a zero packet — whose
empty action then fails validation. -/
def decodeIRField (prev : Option Packet) (v : JVal) : Option Packet :=
  match v with
  | JVal.null => none
  | JVal.obj fs => some (unmarshalPacketInto (prev.getD zeroPacket) fs)
  | _ => some (prev.getD zeroPacket)

/-- `Response.UnmarshalJSON` from `ir.go`, decoding into an existing value
(the method has a pointer receiver, so the repair flow in
`processResponse` merges fields into the current response).  The top level
must unmarshal into `map[string]json.RawMessage`: any non-object,
non-null document is an error (`none`); JSON `null` yields a nil map and
leaves every field untouched.  Field decode errors are discarded
(`_ = json.Unmarshal(...)`).  The legacy key `needProcees` is consulted
first, then `needProcess`. -/
def Response.unmarshalInto (r : Response) (j : JVal) : Option Response :=
  match j with
  | JVal.null => some r
  | JVal.obj raw =>
    let r1 := match lookupJ raw "reply" with
              | some (JVal.str s) => { r with reply := s }
              | _ => r
    let r2 := match lookupJ raw "ir" with
              | some v => { r1 with ir := decodeIRField r1.ir v }
              | none => r1
    let r3 := match lookupJ raw "needProcees" with
              | some (JVal.bool b) => { r2 with needProcess := b }
              | some _ => r2
              | none =>
                match lookupJ raw "needProcess" with
                | some (JVal.bool b) => { r2 with needProcess := b }
                | _ => r2
    some r3
  | _ => none

/-- Fresh decode of a Dual-Output Response from a JSON value
(`var agentResp ir.Response; json.Unmarshal(data, &agentResp)`). -/
def decodeResponseJ (j : JVal) : Option Response :=
  Response.unmarshalInto zeroResponse j

/-- Decode raw backend text: the abstract stdlib syntax parser `jparse`
produces a JSON value (or fails), then `Response.UnmarshalJSON` runs.
`none` models the non-nil decode error of `json.Unmarshal`. -/
def decodeResponseText (jparse : String → Option JVal) (raw : String) : Option Response :=
  match jparse raw with
  | some j => decodeResponseJ j
  | none => none

/-- Decode raw text into an existing response (the semantic-repair call
site `json.Unmarshal([]byte(repairResp.Text), agentResp)`). -/
def decodeResponseTextInto (jparse : String → Option JVal) (r : Response)
    (raw : String) : Option Response :=
  match jparse raw with
  | some j => Response.unmarshalInto r j
  | none => none

/-! ### Claim C1 — `Packet.Validate` enum checks -/

/-- Membership of an action in the closed enum of `ir.go`. -/
def validAction (a : String) : Prop :=
  a = actionActNow ∨ a = actionSchedule ∨ a = actionAsk ∨
  a = actionDefer ∨ a = actionListReminders

/-- Membership of a risk value in the closed enum of `ir.go` (empty allowed). -/
def validRisk (r : String) : Prop :=
  r = riskNone ∨ r = riskLow ∨ r = riskMedium ∨ r = riskHigh ∨ r = ""

instance (a : String) : Decidable (validAction a) := by
  unfold validAction; infer_instance

instance (r : String) : Decidable (validRisk r) := by
  unfold validRisk; infer_instance

/-- C1: `Packet.Validate` returns a non-nil error whenever `action` is
outside {act_now, schedule, ask, defer, list_reminders}, a non-nil error
whenever `risk` is outside {none, low, medium, high, ""}, and `nil` for
every packet whose action and risk both lie in their enums. -/
theorem c1_validate_enums (p : Packet) :
    (¬ validAction p.action → (Packet.validate p).isSome) ∧
    (¬ validRisk p.risk → (Packet.validate p).isSome) ∧
    (validAction p.action → validRisk p.risk → Packet.validate p = none) := by
  unfold Packet.validate validAction validRisk
  refine ⟨?_, ?_, ?_⟩
  · intro h
    rw [if_neg h]
    rfl
  · intro h
    by_cases ha : validAction p.action
    · unfold validAction at ha
      rw [if_pos ha, if_neg h]
      rfl
    · unfold validAction at ha
      rw [if_neg ha]
      rfl
  · intro ha hr
    rw [if_pos ha, if_pos hr]

/-- C1 witness: instantiation at concrete packets exercising all three
conjuncts. -/
theorem c1_validate_enums_witness :
    Packet.validate ⟨"act_now", "", "low", "", [], 1⟩ = none ∧
    (Packet.validate ⟨"jump", "", "low", "", [], 1⟩).isSome ∧
    (Packet.validate ⟨"ask", "", "extreme", "", [], 1⟩).isSome := by
  refine ⟨?_, ?_, ?_⟩
  · exact (c1_validate_enums ⟨"act_now", "", "low", "", [], 1⟩).2.2 (by decide) (by decide)
  · exact (c1_validate_enums ⟨"jump", "", "low", "", [], 1⟩).1 (by decide)
  · exact (c1_validate_enums ⟨"ask", "", "extreme", "", [], 1⟩).2.1 (by decide)

/-! ### Claim C6 — `needProcess` / `needProcees` aliasing -/

/-- C6: a JSON object that carries the continuation flag under exactly one
of the two accepted keys decodes to that boolean, and the two spellings
yield the same decoded response. -/
theorem c6_needprocess_alias (fs : List (String × JVal)) (b : Bool)
    (h1 : lookupJ fs "needProcess" = none)
    (h2 : lookupJ fs "needProcees" = none) :
    ∃ r1 r2,
      decodeResponseJ (JVal.obj (("needProcess", JVal.bool b) :: fs)) = some r1 ∧
      decodeResponseJ (JVal.obj (("needProcees", JVal.bool b) :: fs)) = some r2 ∧
      r1.needProcess = b ∧ r2.needProcess = b ∧ r1 = r2 := by
  unfold decodeResponseJ Response.unmarshalInto
  simp only [lookupJ, if_neg (by decide : ¬ ("needProcess" = "reply")),
    if_neg (by decide : ¬ ("needProcees" = "reply")),
    if_neg (by decide : ¬ ("needProcess" = "ir")),
    if_neg (by decide : ¬ ("needProcees" = "ir")),
    if_neg (by decide : ¬ ("needProcess" = "needProcees")),
    if_pos (rfl : "needProcees" = "needProcees"),
    if_pos (rfl : "needProcess" = "needProcess"),
    h1, h2]
  exact ⟨_, _, rfl, rfl, rfl, rfl, rfl⟩

/-- C6 witness: concrete object with the flag under each spelling. -/
theorem c6_needprocess_alias_witness :
    ∃ r1 r2,
      decodeResponseJ (JVal.obj (("needProcess", JVal.bool true) ::
        [("reply", JVal.str "hi")])) = some r1 ∧
      decodeResponseJ (JVal.obj (("needProcees", JVal.bool true) ::
        [("reply", JVal.str "hi")])) = some r2 ∧
      r1.needProcess = true ∧ r2.needProcess = true ∧ r1 = r2 :=
  c6_needprocess_alias [("reply", JVal.str "hi")] true rfl rfl

/-! ## `internal/router/router.go` — the deterministic router -/

/-- The note-DSL branch of `Router.Route`: content extraction via
`strings.SplitN(text, ":", 2)`, falling back to a split at the first space.
Returns the matched packet, or `none` when the extracted content is empty
(Go then falls through to the list-DSL check). -/
def routeNote (text : String) : Option Packet :=
  let content :=
    match splitFirst text ":" with
    | some (_, rest) => trimStr rest
    | none =>
      match splitFirst text " " with
      | some (_, rest) => trimStr rest
      | none => ""
  if content ≠ "" then
    some { action := actionActNow, intent := "notes.append", risk := riskLow,
           whenSpec := "", confidence := 1,
           tools := [⟨"notes_append", some (JVal.obj [("content", JVal.str content)])⟩] }
  else none

/-- The list-DSL branch of `Router.Route`: `list <bucket> (+=|-=|?) <item>`.
`rest` is Go's byte slice `text[5:]`; fields are `strings.Fields(rest)`,
the item re-joins the remaining fields with single spaces. -/
def routeList (text : String) : Option Packet :=
  let rest := strDrop text 5
  match fieldsStr rest with
  | bucket :: op :: tailFields =>
    let item := String.intercalate " " tailFields
    let pair : Option (String × String) :=
      if op = "+=" then some ("list_add", "list.add")
      else if op = "-=" then some ("list_remove", "list.remove")
      else if op = "?" then some ("list_show", "list.show")
      else none
    match pair with
    | some (toolName, intent) =>
      some { action := actionActNow, intent := intent, risk := riskLow,
             whenSpec := "", confidence := 1,
             tools := [⟨toolName,
               some (JVal.obj [("item", JVal.str item), ("list", JVal.str bucket)])⟩] }
    | none => none
  | _ => none

/-- `Router.Route` from `router.go`.  A pure function of the input text:
case-insensitive matching for `/help`, `help`, `ping`, the note DSL
(`note:`/`nota:` or `note `/`nota ` prefixes) and the list DSL (`list `
prefix).  `some p` models `(p, true)`, `none` models `(nil, false)`.
No side effect and no backend call occur (the function is pure by
construction). -/
def route (text0 : String) : Option Packet :=
  let text := trimStr text0
  let lower := lowerStr text
  if lower = "/help" ∨ lower = "help" then
    some { action := actionActNow, intent := "help", risk := riskNone,
           whenSpec := "", confidence := 1,
           tools := [⟨"help", some (JVal.obj [])⟩] }
  else if lower = "ping" then
    some { action := actionActNow, intent := "ping", risk := riskNone,
           whenSpec := "", confidence := 1, tools := [] }
  else
    let noteHit :=
      if hasPre lower "nota:" ∨ hasPre lower "note:" ∨
         hasPre lower "nota " ∨ hasPre lower "note " then
        routeNote text
      else none
    match noteHit with
    | some p => some p
    | none => if hasPre lower "list " then routeList text else none

/-- `Router.GenerateReply` from `router.go`. -/
def generateReply (packet : Packet) : String :=
  if packet.intent = "help" then
    "Available commands: note: <text>, ping, or speak naturally."
  else if packet.intent = "ping" then "Pong!"
  else if packet.intent = "notes.append" then "Note saved."
  else "Command processed."

/-! ### Claim C7 — deterministic routing of `note: buy milk` -/

/-- C7: `Route "note: buy milk"` matches and yields the Action Packet with
intent `notes.append`, confidence `1.0`, and exactly one Tool Request for
`notes_append` carrying the payload `{"content":"buy milk"}`.  `route` is a
pure Lean function, so the match involves no side effect and no backend
call. -/
theorem c7_route_note_buy_milk :
    route "note: buy milk" =
      some { action := "act_now", intent := "notes.append", risk := "low",
             whenSpec := "", confidence := 1,
             tools := [⟨"notes_append",
               some (JVal.obj [("content", JVal.str "buy milk")])⟩] } := by
  rfl

/-! ## Tool registry (`internal/tools`, `Registry.Get`) -/

/-- A registered tool.  The implementation behind `Tool.Run` is external
(HTTP, shell, scheduler, ...); its observable behaviour is an abstract
function from the raw argument message (possibly nil) to
`(Result.Output, error)`, where `some e` models a non-nil error. -/
structure MTool where
  name : String
  run : Option JVal → String × Option String

/-- Assoc-list lookup with string keys (Go map read). -/
def lookupAssoc {α : Type} : List (String × α) → String → Option α
  | [], _ => none
  | (k, v) :: t, key => if k = key then some v else lookupAssoc t key

/-- Assoc-list insert with overwrite (Go map write); keys stay unique. -/
def insertAssoc {α : Type} (l : List (String × α)) (k : String) (v : α) :
    List (String × α) :=
  (k, v) :: l.filter (fun p => p.1 ≠ k)

/-- `tools.Registry`: name→tool and alias→name maps.  Go map iteration
order is unspecified; the model fixes list order as one admissible order
(the fuzzy tier below is documented as nondeterministic). -/
structure Registry where
  tools : List (String × MTool)
  aliases : List (String × String)

/-- `Registry.Register`: keyed by the lowercased tool name. -/
def Registry.register (r : Registry) (t : MTool) : Registry :=
  { r with tools := insertAssoc r.tools (lowerStr t.name) t }

/-- `Registry.RegisterAlias`. -/
def Registry.registerAlias (r : Registry) (aliasName target : String) : Registry :=
  { r with aliases := insertAssoc r.aliases (lowerStr aliasName) (lowerStr target) }

/-- `Registry.Get`: lowercase the request, then (1) exact match, (2) alias
match, (3) fuzzy tier returning the first stored tool whose key contains
the request or is contained in it.  `none` models the nil return. -/
def Registry.get (r : Registry) (name0 : String) : Option MTool :=
  let name := lowerStr name0
  match lookupAssoc r.tools name with
  | some t => some t
  | none =>
    match (lookupAssoc r.aliases name).bind (lookupAssoc r.tools) with
    | some t => some t
    | none =>
      r.tools.findSome? fun tn =>
        if strContains tn.1 name || strContains name tn.1 then some tn.2 else none

/-- `Registry.List`: the canonical tool names (no aliases). -/
def Registry.list (r : Registry) : List String := r.tools.map (fun tn => tn.2.name)

/-- `tools.FormatToolList`. -/
def formatToolList (list : List String) : String :=
  if list.length = 0 then "no tools registered"
  else "tools: " ++ String.intercalate ", " list

/-! ## `cmd/agent/main.go` — event trace and `executePacket` -/

/-- Observable effects of the orchestration pipeline, one constructor per
call site in `main.go`:
* `exec` — `codexClient.Exec(ctx, sessionID, dir, prompt, useLast)`;
* `send` — a content `adapter.Send` (replies, raw passthrough, job lists,
  shell output, quick-command output);
* `sendLLMError` — the `"LLM Error: "` report after a failed `Exec`;
* `sendCritical` — the `"Critical error: Agent produced invalid action
  twice."` notification;
* `sendToolError` — the per-tool `"[System] Tool error ..."` message;
* `sendStatus` — the `sendStatus` helper (pre-execution count, summary);
* `setSessionID`, `setDir`, `setUseLast` — session-store writes;
* `listJobsCall` — the `sched.ListJobs()` query. -/
inductive Ev where
  | exec (sessionID dir prompt : String) (useLast : Bool)
  | send (target text : String)
  | sendLLMError (target errMsg : String)
  | sendCritical (target : String)
  | sendToolError (target name errMsg : String)
  | sendStatus (target text : String)
  | setSessionID (key v : String)
  | setDir (key v : String)
  | setUseLast (key : String) (b : Bool)
  | listJobsCall

/-- Target injection in `executePacket`: for tools named `schedule` or
`schedule_job`, unmarshal the args into a map and add the chat target only
when the caller omitted it.  A non-object or absent payload fails to
unmarshal, so the injection is skipped and the args pass through.  The
literal `null` document, however, unmarshals *successfully* into a nil
map; the subsequent write `argsMap["target"] = targetID` is an assignment
to a nil map and panics, and `handleMessage` runs on a bare goroutine
with no recover, so the process dies.  The result `none` models that
panic.  (`json.Marshal` of the updated map sorts keys; at the value level
the appended pair denotes the same map.) -/
def injectTarget (reqName target : String) (args : Option JVal) :
    Option (Option JVal) :=
  if reqName = "schedule" ∨ reqName = "schedule_job" then
    match args with
    | some (JVal.obj m) =>
      match lookupJ m "target" with
      | some _ => some args
      | none => some (some (JVal.obj (m ++ [("target", JVal.str target)])))
    | some JVal.null => none
    | some _ => some args
    | none => some args
  else some args

/-- The tool loop of `executePacket`: resolve each name in order — an
unresolved name is recorded as a `tool not found` failure with no send and
the loop continues; a resolved tool gets the target injection, then runs
(an error yields the per-tool system message and the loop continues).
When the injection panics (literal-null args of a resolvable
`schedule`/`schedule_job` request) the process dies: the crashing request
contributes no event and no result, the remaining requests never run, and
the crash flag is raised.  Returns (events, results slice, crashed). -/
def execTools (reg : Registry) (target : String) : List ToolRequest →
    List Ev × List (String × Option String) × Bool
  | [] => ([], [], false)
  | req :: rest =>
    match reg.get req.name with
    | none =>
      let t := execTools reg target rest
      (t.1, (req.name, some "tool not found") :: t.2.1, t.2.2)
    | some tool =>
      match injectTarget req.name target req.args with
      | none => ([], [], true)
      | some args2 =>
        match (tool.run args2).2 with
        | some e =>
          let t := execTools reg target rest
          (Ev.sendToolError target req.name e :: t.1,
           (req.name, some e) :: t.2.1, t.2.2)
        | none =>
          let t := execTools reg target rest
          (t.1, (req.name, none) :: t.2.1, t.2.2)

/-- The `results` slice accumulated by `executePacket`, in request order
(truncated at a crash). -/
def packetResults (reg : Registry) (target : String) (pkt : Packet) :
    List (String × Option String) :=
  (execTools reg target pkt.tools).2.1

/-- The final success/failure summary string built by `executePacket`. -/
def summaryString (results : List (String × Option String)) : String :=
  let okCount := results.countP (fun res => res.2.isNone)
  let failCount := results.countP (fun res => res.2.isSome)
  let details := results.map (fun res =>
    if res.2.isSome then res.1 ++ " falhou" else res.1 ++ " ok")
  let base := "Status: concluído. Sucesso: " ++ toString okCount ++
    ", Falhas: " ++ toString failCount ++ "."
  if details.length > 0 then
    base ++ " Detalhes: " ++ String.intercalate "; " details ++ "."
  else base

/-- `executePacket` from `main.go`: announce the tool count when at least
one tool is declared, run the Tool Requests in order, and send the
aggregated summary when any result exists.  A panic in the injection
preamble kills the process: the trace stops where the crash happened and
no summary is sent; the Bool reports the crash for the callers (which
also die). -/
def executePacket (reg : Registry) (pkt : Packet) (target : String) :
    List Ev × Bool :=
  let pre := if pkt.tools.length > 0 then
    [Ev.sendStatus target ("Status: iniciando " ++ toString pkt.tools.length ++
      " tool(s)...")] else []
  let t := execTools reg target pkt.tools
  if t.2.2 then (pre ++ t.1, true)
  else if t.2.1.length = 0 then (pre ++ t.1, false)
  else (pre ++ t.1 ++ [Ev.sendStatus target (summaryString t.2.1)], false)

/-! ### Claim C8 — per-tool failure isolation and aggregation -/

/-- C8 counterexample: a packet holding a resolvable `schedule` request
whose args are the literal JSON `null` document, followed by a second
tool.  Go unmarshals `null` into a nil map without error and then writes
`argsMap["target"]`, panicking and killing the process: the sibling tool
`beta` is never attempted, no result is recorded, no summary is sent, and
the trace ends at the pre-execution status message — refuting the claim
that every remaining Tool Request is still attempted and all outcomes are
aggregated. -/
theorem c8_tool_isolation_counterexample :
    (execTools
      ⟨[("schedule", ⟨"schedule", fun _ => ("", none)⟩),
        ("beta", ⟨"beta", fun _ => ("", none)⟩)], []⟩ "42"
      [⟨"schedule", some JVal.null⟩, ⟨"beta", none⟩]).2 = ([], true) ∧
    (executePacket
      ⟨[("schedule", ⟨"schedule", fun _ => ("", none)⟩),
        ("beta", ⟨"beta", fun _ => ("", none)⟩)], []⟩
      ⟨"act_now", "", "", "", [⟨"schedule", some JVal.null⟩, ⟨"beta", none⟩], 1⟩
      "42").1 = [Ev.sendStatus "42" "Status: iniciando 2 tool(s)..."] :=
  ⟨rfl, rfl⟩

/-- On a crash-free run the tool loop visits every request in order and
records the unresolved ones as `tool not found` failures. -/
theorem execTools_safe (reg : Registry) (target : String) :
    ∀ l : List ToolRequest, (execTools reg target l).2.2 = false →
      (execTools reg target l).2.1.map Prod.fst = l.map ToolRequest.name ∧
      (∀ req ∈ l, reg.get req.name = none →
        (req.name, some "tool not found") ∈ (execTools reg target l).2.1) := by
  intro l
  induction l with
  | nil =>
    intro _
    exact ⟨rfl, fun req hreq _ => absurd hreq (List.not_mem_nil req)⟩
  | cons req rest ih =>
    intro hsafe
    unfold execTools at hsafe ⊢
    cases hg : reg.get req.name with
    | none =>
      simp only [hg] at hsafe ⊢
      refine ⟨?_, ?_⟩
      · simp only [List.map_cons]
        rw [(ih hsafe).1]
      · intro req2 hreq2 hget2
        rcases List.mem_cons.mp hreq2 with h2 | h2
        · subst h2
          exact List.mem_cons_self _ _
        · exact List.mem_cons_of_mem _ ((ih hsafe).2 req2 h2 hget2)
    | some tool =>
      simp only [hg] at hsafe ⊢
      cases hj : injectTarget req.name target req.args with
      | none =>
        simp only [hj] at hsafe
        exact absurd hsafe (by simp)
      | some args2 =>
        simp only [hj] at hsafe ⊢
        cases hr : (tool.run args2).2 with
        | some e =>
          simp only [hr] at hsafe ⊢
          refine ⟨?_, ?_⟩
          · simp only [List.map_cons]
            rw [(ih hsafe).1]
          · intro req2 hreq2 hget2
            rcases List.mem_cons.mp hreq2 with h2 | h2
            · subst h2
              rw [hget2] at hg
              exact Option.noConfusion hg
            · exact List.mem_cons_of_mem _ ((ih hsafe).2 req2 h2 hget2)
        | none =>
          simp only [hr] at hsafe ⊢
          refine ⟨?_, ?_⟩
          · simp only [List.map_cons]
            rw [(ih hsafe).1]
          · intro req2 hreq2 hget2
            rcases List.mem_cons.mp hreq2 with h2 | h2
            · subst h2
              rw [hget2] at hg
              exact Option.noConfusion hg
            · exact List.mem_cons_of_mem _ ((ih hsafe).2 req2 h2 hget2)

/-- C8 as amended: provided the target-injection preamble does not panic
(no resolvable `schedule`/`schedule_job` request carrying a literal-null
payload — that case kills the process before the remaining tools and the
summary), every Tool Request is attempted in order — the results slice
lists exactly the requested names — an unresolved name is recorded as a
`tool not found` failure without aborting the rest, a tool error does not
prevent any sibling from running, and all per-tool outcomes are
aggregated into the final summary send. -/
theorem c8_tool_isolation (reg : Registry) (pkt : Packet) (target : String)
    (h : pkt.tools ≠ [])
    (hsafe : (execTools reg target pkt.tools).2.2 = false) :
    (packetResults reg target pkt).map Prod.fst = pkt.tools.map ToolRequest.name ∧
    (packetResults reg target pkt).length = pkt.tools.length ∧
    (∀ req ∈ pkt.tools, reg.get req.name = none →
      (req.name, some "tool not found") ∈ packetResults reg target pkt) ∧
    (executePacket reg pkt target).1.getLast? =
      some (Ev.sendStatus target (summaryString (packetResults reg target pkt))) := by
  have hmain := execTools_safe reg target pkt.tools hsafe
  have hlen2 : (packetResults reg target pkt).length = pkt.tools.length := by
    calc (packetResults reg target pkt).length
        = ((packetResults reg target pkt).map Prod.fst).length :=
          (List.length_map _ _).symm
      _ = (pkt.tools.map ToolRequest.name).length := by
          unfold packetResults
          rw [hmain.1]
      _ = pkt.tools.length := List.length_map _ _
  refine ⟨hmain.1, hlen2, hmain.2, ?_⟩
  unfold executePacket
  have hc1 : ¬ ((execTools reg target pkt.tools).2.2 = true) := by
    rw [hsafe]
    simp
  rw [if_neg hc1]
  have hlen3 : (execTools reg target pkt.tools).2.1.length = pkt.tools.length :=
    hlen2
  have hc2 : ¬ ((execTools reg target pkt.tools).2.1.length = 0) := by
    rw [hlen3]
    simp only [List.length_eq_zero]
    exact h
  rw [if_neg hc2]
  exact List.getLast?_concat _

/-- C8 witness: a crash-free two-tool packet where the first name is
unresolved and the second tool errors; both are attempted and recorded. -/
theorem c8_tool_isolation_witness :
    (packetResults ⟨[("beta", ⟨"beta", fun _ => ("", some "boom")⟩)], []⟩ "42"
        ⟨"act_now", "", "", "",
          [⟨"zzqq", none⟩, ⟨"beta", none⟩], 1⟩).map Prod.fst =
      ["zzqq", "beta"] ∧
    ((packetResults ⟨[("beta", ⟨"beta", fun _ => ("", some "boom")⟩)], []⟩ "42"
        ⟨"act_now", "", "", "",
          [⟨"zzqq", none⟩, ⟨"beta", none⟩], 1⟩) =
      [("zzqq", some "tool not found"), ("beta", some "boom")]) := by
  constructor
  · exact (c8_tool_isolation ⟨[("beta", ⟨"beta", fun _ => ("", some "boom")⟩)], []⟩
      ⟨"act_now", "", "", "", [⟨"zzqq", none⟩, ⟨"beta", none⟩], 1⟩ "42"
      (by simp) rfl).1.trans (by rfl)
  · rfl

/-! ### Claim C10 — `Get ""` on a non-empty registry -/

/-- The empty string is contained in every string (`strings.Contains s ""`). -/
theorem strContains_empty (s : String) : strContains s "" = true := by
  unfold strContains
  cases h : s.data with
  | nil => rfl
  | cons c t => unfold containsL; simp [isPrefixL]

/-- Lowercasing the empty string is the empty string. -/
theorem lowerStr_empty : lowerStr "" = "" := rfl

/-- C10: on a registry holding at least one tool, `Get ""` returns a
non-nil tool — the empty request falls through the exact and alias tiers
and the fuzzy-substring tier matches every stored name. -/
theorem c10_get_empty_name (reg : Registry) (h : reg.tools ≠ []) :
    (Registry.get reg "").isSome := by
  obtain ⟨tn, rest, htools⟩ : ∃ tn rest, reg.tools = tn :: rest := by
    cases h2 : reg.tools with
    | nil => exact absurd h2 h
    | cons a l => exact ⟨a, l, rfl⟩
  simp only [Registry.get, htools]
  cases lookupAssoc (tn :: rest) (lowerStr "") with
  | some t => rfl
  | none =>
    cases (lookupAssoc reg.aliases (lowerStr "")).bind (lookupAssoc (tn :: rest)) with
    | some t => rfl
    | none =>
      simp [List.findSome?, strContains_empty, lowerStr_empty]

/-- C10 witness: a singleton registry resolves the empty name. -/
theorem c10_get_empty_name_witness :
    (Registry.get ⟨[("shell_exec", ⟨"shell_exec", fun _ => ("", none)⟩)], []⟩ "").isSome :=
  c10_get_empty_name ⟨[("shell_exec", ⟨"shell_exec", fun _ => ("", none)⟩)], []⟩ (by simp)

/-! ## `internal/scheduler/tool.go` — the `schedule` tool -/

/-- Observable scheduler registrations made by the `schedule` tool:
`Scheduler.AddOneShot(delay, fn, desc)` and `Scheduler.AddTask(spec, fn,
desc)` (the cron fallback).  Delays are nanoseconds (`time.Duration`). -/
inductive SchedEv where
  | addOneShot (delayNs : Int) (desc : String)
  | addCron (spec : String) (desc : String)

/-- Environment of external time facilities used by `Tool.Run`:
the stdlib parsers `time.ParseDuration` and `time.Parse(time.RFC3339)`
(`none` models a parse error), the current instant `time.Now()` (Unix
nanoseconds, so `time.Until ts = ts - now`), the textual forms `%s` gives
a duration and an instant, and the cron-spec validity/error of
`cron.AddFunc`. -/
structure SchedEnv where
  parseDuration : String → Option Int
  parseRFC3339 : String → Option Int
  now : Int
  fmtDuration : Int → String
  fmtTime : Int → String
  cronOk : String → Bool
  cronErr : String → String

/-- The decoded `scheduler.Input` argument struct of the `schedule` tool. -/
structure ScheduleInput where
  spec : String
  whenAlias : String    -- source field `When` (json tag "when"), alias of spec
  message : String
  adapter : String
  target : String

/-- Standard struct decode of `scheduler.Input` (string fields; JSON null
is a no-op; a non-object document is an error). -/
def unmarshalScheduleInput (j : JVal) : Option ScheduleInput :=
  match j with
  | JVal.obj fs => some
      ⟨getStrField fs "spec" "", getStrField fs "when" "",
       getStrField fs "message" "", getStrField fs "adapter" "",
       getStrField fs "target" ""⟩
  | JVal.null => some ⟨"", "", "", "", ""⟩
  | _ => none

/-- Outcome of one `Tool.Run` call of the `schedule` tool: scheduler
registrations plus `(Result.Output, Result.Error, error)`. -/
structure SchedRunOut where
  events : List SchedEv
  output : String
  errField : String
  err : Option String

/-- `scheduler.Tool.Run` from `tool.go`: decode the input, require
`message` and `target`, default the adapter, normalize `when` into `spec`,
then try in order: Go duration, RFC3339 absolute time (a past instant is
clamped to delay 0 and executed immediately rather than rejected), and
finally a cron registration.  The timer callbacks only run later; their
adapter sends are outside this call's trace. -/
def scheduleToolRun (env : SchedEnv) (input : JVal) : SchedRunOut :=
  match unmarshalScheduleInput input with
  | none => ⟨[], "", "invalid input", some "invalid input"⟩
  | some in0 =>
    if in0.message = "" then
      ⟨[], "", "message is required", some "message is required"⟩
    else if in0.target = "" then
      ⟨[], "", "target is required", some "target is required"⟩
    else
      let in1 := if in0.adapter = "" then { in0 with adapter := "telegram" } else in0
      let in2 := if (in1.spec = "" ∨ in1.spec = "once") ∧ in1.whenAlias ≠ "" then
                   { in1 with spec := in1.whenAlias } else in1
      match env.parseDuration in2.spec with
      | some d =>
        ⟨[SchedEv.addOneShot d in2.message],
         "Scheduled one-shot task in " ++ env.fmtDuration d, "", none⟩
      | none =>
        match env.parseRFC3339 in2.spec with
        | some ts =>
          let d := ts - env.now
          let d2 := if d < 0 then 0 else d
          let note := if d < 0 then " (time was in past, executing now)" else ""
          ⟨[SchedEv.addOneShot d2 in2.message],
           "Scheduled one-shot task at " ++ env.fmtTime ts ++ note, "", none⟩
        | none =>
          if env.cronOk in2.spec then
            ⟨[SchedEv.addCron in2.spec in2.message],
             "Scheduled recurring task: " ++ in2.spec, "", none⟩
          else
            ⟨[], "", "invalid schedule spec: " ++ env.cronErr in2.spec,
             some (env.cronErr in2.spec)⟩

/-! ### Claim C9 — past-due absolute schedules execute immediately -/

/-- C9: a schedule request whose spec is a well-formed RFC3339 instant in
the past is not rejected: `Run` registers a one-shot with the delay
clamped to zero and returns a success result (nil error, output noting
immediate execution). -/
theorem c9_past_schedule_clamped (env : SchedEnv) (j : JVal) (in0 : ScheduleInput)
    (ts : Int)
    (hdec : unmarshalScheduleInput j = some in0)
    (hmsg : in0.message ≠ "") (htgt : in0.target ≠ "")
    (hspec1 : in0.spec ≠ "") (hspec2 : in0.spec ≠ "once")
    (hdur : env.parseDuration in0.spec = none)
    (hrfc : env.parseRFC3339 in0.spec = some ts)
    (hpast : ts < env.now) :
    scheduleToolRun env j =
      ⟨[SchedEv.addOneShot 0 in0.message],
       "Scheduled one-shot task at " ++ env.fmtTime ts ++
         " (time was in past, executing now)", "", none⟩ := by
  unfold scheduleToolRun
  rw [hdec]
  simp only [if_neg hmsg, if_neg htgt]
  have hnorm : ¬ ((in0.spec = "" ∨ in0.spec = "once") ∧ in0.whenAlias ≠ "") := by
    rintro ⟨hor, -⟩
    cases hor with
    | inl hh => exact hspec1 hh
    | inr hh => exact hspec2 hh
  by_cases hadp : in0.adapter = ""
  · simp only [if_pos hadp, if_neg hnorm, hdur, hrfc]
    have hneg : ts - env.now < 0 := by omega
    simp only [if_pos hneg]
  · simp only [if_neg hadp, if_neg hnorm, hdur, hrfc]
    have hneg : ts - env.now < 0 := by omega
    simp only [if_pos hneg]

/-- C9 witness: a concrete environment where the spec parses as an
absolute time 5ns before now. -/
theorem c9_past_schedule_clamped_witness :
    scheduleToolRun
      ⟨fun _ => none, fun s => if s = "2020-01-01T00:00:00Z" then some 5 else none,
       10, fun _ => "", fun _ => "2020-01-01 00:00:00 +0000 UTC", fun _ => false,
       fun _ => ""⟩
      (JVal.obj [("spec", JVal.str "2020-01-01T00:00:00Z"),
                 ("message", JVal.str "ping me"), ("target", JVal.str "42")]) =
      ⟨[SchedEv.addOneShot 0 "ping me"],
       "Scheduled one-shot task at 2020-01-01 00:00:00 +0000 UTC (time was in past, executing now)",
       "", none⟩ :=
  c9_past_schedule_clamped
    ⟨fun _ => none, fun s => if s = "2020-01-01T00:00:00Z" then some 5 else none,
     10, fun _ => "", fun _ => "2020-01-01 00:00:00 +0000 UTC", fun _ => false,
     fun _ => ""⟩
    (JVal.obj [("spec", JVal.str "2020-01-01T00:00:00Z"),
               ("message", JVal.str "ping me"), ("target", JVal.str "42")])
    ⟨"2020-01-01T00:00:00Z", "", "ping me", "", "42"⟩ 5
    rfl (by decide) (by decide) (by decide) (by decide) rfl (by simp) (by decide)

/-! ## `cmd/agent/main.go` — the per-message pipeline -/

/-- Outcome of one `codex.Client.Exec` invocation: a non-nil error (the
response is then discarded by every caller) or the cleaned stdout text
plus the session id and working directory extracted from the logs. -/
inductive ExecOut where
  | fail (msg : String)
  | ok (text sessionID newDir : String)

/-- `store.SessionState` snapshot: session id, working dir, continuation
flag. -/
structure SessionState where
  id : String
  dir : String
  useLast : Bool

/-- Inbound adapter message. -/
structure MsgIn where
  senderID : String
  text : String

/-- Environment of external collaborators of `handleMessage`:
* `jparse` — the `encoding/json` syntax parser (produces the JSON value of
  a document, `none` on malformed input);
* `jerr` — the stdlib error text for a document that fails to decode;
* `oracle` — the backend: the outcome of the i-th `codexClient.Exec` call
  of this turn (the pipeline threads an explicit call counter);
* `registry` — the tool registry;
* `listJobsRes` — the `sched.ListJobs()` outcome;
* `promptFile` — `os.ReadFile("prompt.txt")` (`none` models a read error);
* `nowStr` — `time.Now().Format(time.RFC3339)`;
* `normalizeCwd` — `codex.NormalizeCwd` (filesystem-dependent);
* `shell` — `executil.Run` of a bash command in a directory, yielding
  `(stdout, stderr, code)`. -/
structure PipeEnv where
  jparse : String → Option JVal
  jerr : String → String
  oracle : Nat → ExecOut
  registry : Registry
  listJobsRes : Except String (List String)
  promptFile : Option String
  nowStr : String
  normalizeCwd : String → String
  shell : String → String → String × String × Int

/-- The repair prompt of `parseResponse` (a Go raw-string literal filled
with the original input, the malformed output, and the decode error). -/
def parseRepairPrompt (prompt raw errStr : String) : String :=
  "System: You returned invalid JSON. Fix it strictly following the schema.\nInput was: " ++
  prompt ++ "\nOutput was: " ++ raw ++ "\nError: " ++ errStr ++ "\nReturn JSON only."

/-- The semantic-repair prompt of `processResponse` (filled with the
validation error; the literal enumerates the allowed actions). -/
def semanticRepairPrompt (verr : String) : String :=
  "System: IR validation failed: " ++ verr ++
  ". \nYou must fix the JSON. Allowed actions: act_now, schedule, ask, defer.\nReturn JSON only."

/-- `parseResponse` from `main.go`: decode the raw text; on failure issue
exactly one repair `Exec` with continuation disabled; if the repair text
decodes, proceed with it; if it fails to decode, send the raw text
verbatim and give up (`none` models `(ir.Response{}, false)`); if the
repair `Exec` itself errors, give up silently.  Returns the events, the
next call-counter value, and the decoded response if any. -/
def parseResponseM (env : PipeEnv) (sender : String) (k : Nat)
    (prompt raw sid dir : String) : List Ev × Nat × Option Response :=
  match decodeResponseText env.jparse raw with
  | some r => ([], k, some r)
  | none =>
    let rp := parseRepairPrompt prompt raw (env.jerr raw)
    match env.oracle k with
    | ExecOut.fail _ => ([Ev.exec sid dir rp false], k + 1, none)
    | ExecOut.ok t _ _ =>
      match decodeResponseText env.jparse t with
      | some r => ([Ev.exec sid dir rp false], k + 1, some r)
      | none => ([Ev.exec sid dir rp false, Ev.send sender raw], k + 1, none)

/-- The tail of `processResponse` once a validated packet is in hand: the
`list_reminders` special action queries the scheduler listing and sends it
(or the listing error), bypassing tool execution; every other action runs
`executePacket`, whose crash flag propagates (the process dies inside the
tool loop). -/
def processPacketAction (env : PipeEnv) (sender : String) (p : Packet) :
    List Ev × Bool :=
  if p.action = actionListReminders then
    match env.listJobsRes with
    | Except.error e =>
      ([Ev.listJobsCall, Ev.send sender ("Error listing jobs: " ++ e)], false)
    | Except.ok jobs =>
      ([Ev.listJobsCall, Ev.send sender (String.intercalate "\n" jobs)], false)
  else executePacket env.registry p sender

/-- `processResponse` from `main.go`: send the reply if present; with no
packet return the continuation flag; validate the packet and on failure
issue exactly one semantic-repair `Exec` (continuation disabled), decode
its text into the existing response (pointer-receiver merge) and
re-validate; a second validation failure sends the critical notification
and returns false.  The result `none` models a Go crash of the turn:
either the nil-pointer dereference when the merged repair response
carries `ir: null` (`agentResp.IR.Validate()` on a nil pointer), or the
nil-map panic propagated out of `executePacket`. -/
def processResponseM (env : PipeEnv) (sender : String) (k : Nat) (r : Response)
    (sid dir : String) : List Ev × Nat × Option Bool :=
  let evReply := if r.reply ≠ "" then [Ev.send sender r.reply] else []
  match r.ir with
  | none => (evReply, k, some r.needProcess)
  | some p =>
    match p.validate with
    | none =>
      let pa := processPacketAction env sender p
      (evReply ++ pa.1, k, if pa.2 then none else some r.needProcess)
    | some verr =>
      let rp := semanticRepairPrompt verr
      match env.oracle k with
      | ExecOut.fail _ => (evReply ++ [Ev.exec sid dir rp false], k + 1, some false)
      | ExecOut.ok t _ _ =>
        match decodeResponseTextInto env.jparse r t with
        | none => (evReply ++ [Ev.exec sid dir rp false], k + 1, some false)
        | some r2 =>
          match r2.ir with
          | none => (evReply ++ [Ev.exec sid dir rp false], k + 1, none)
          | some p2 =>
            match p2.validate with
            | some _ =>
              (evReply ++ [Ev.exec sid dir rp false, Ev.sendCritical sender],
               k + 1, some false)
            | none =>
              let pa := processPacketAction env sender p2
              (evReply ++ [Ev.exec sid dir rp false] ++ pa.1,
               k + 1, if pa.2 then none else some r2.needProcess)

/-- Session-state update inside the continuation loop (both the store and
the local copy are updated for id and dir). -/
def sessionUpdateLoop (key : String) (st : SessionState) (rsid rdir : String) :
    List Ev × SessionState :=
  let first :=
    if rsid ≠ "" ∧ rsid ≠ st.id then
      ([Ev.setSessionID key rsid], { st with id := rsid })
    else (([] : List Ev), st)
  let second :=
    if rdir ≠ "" ∧ rdir ≠ first.2.dir then
      ([Ev.setDir key rdir], { first.2 with dir := rdir })
    else (([] : List Ev), first.2)
  (first.1 ++ second.1, second.2)

/-- The outbound prompt of the initial backend call: on a fresh session
(`useLast` false) the system prompt file plus time/sender metadata are
prepended once. -/
def mkFullPrompt (env : PipeEnv) (sender text : String) (useLast : Bool) : String :=
  let promptContext :=
    if ¬ useLast then
      match env.promptFile with
      | some content =>
        content ++ "\n\n" ++
          ("Current Time: " ++ env.nowStr ++ "\nUser Chat ID: " ++ sender ++ "\n\n")
      | none => ""
    else ""
  promptContext ++ text

/-- The continuation loop of `handleMessage` (`for i := 0; i < 5; i++`):
each iteration re-invokes the backend with the synthetic prompt
`"continue"`, updates the session snapshot, and re-runs parse and process
with their own independent repair attempts; a false continuation result, a
parse give-up or an `Exec` error ends the loop; exhausted fuel ends it
silently. -/
def continueLoop (env : PipeEnv) (sender key : String) :
    Nat → Nat → SessionState → List Ev
  | 0, _, _ => []
  | fuel + 1, k, st =>
    match env.oracle k with
    | ExecOut.fail e =>
      [Ev.exec st.id st.dir "continue" true, Ev.sendLLMError sender e]
    | ExecOut.ok t rsid rdir =>
      let upd := sessionUpdateLoop key st rsid rdir
      let par := parseResponseM env sender (k + 1) "continue" t upd.2.id upd.2.dir
      match par.2.2 with
      | none => Ev.exec st.id st.dir "continue" true :: (upd.1 ++ par.1)
      | some r =>
        let pro := processResponseM env sender par.2.1 r upd.2.id upd.2.dir
        match pro.2.2 with
        | some true =>
          Ev.exec st.id st.dir "continue" true :: (upd.1 ++ par.1 ++ pro.1) ++
            continueLoop env sender key fuel pro.2.1 upd.2
        | _ => Ev.exec st.id st.dir "continue" true :: (upd.1 ++ par.1 ++ pro.1)

/-- The LLM gateway of `handleMessage` (steps 2–4 plus the continuation
loop): build the outbound prompt, invoke the backend (call 0), persist the
discovered session id / directory (the local dir copy is deliberately not
updated in this initial block, mirroring the source), always mark the
session continuable, then parse, process, and loop while the continuation
flag holds, at most 5 times. -/
def llmTurn (env : PipeEnv) (sender key text : String) (st : SessionState) : List Ev :=
  let fullPrompt := mkFullPrompt env sender text st.useLast
  match env.oracle 0 with
  | ExecOut.fail e =>
    [Ev.exec st.id st.dir fullPrompt st.useLast, Ev.sendLLMError sender e]
  | ExecOut.ok rtext rsid rdir =>
    let updSid :=
      if rsid ≠ "" ∧ rsid ≠ st.id then
        ([Ev.setSessionID key rsid], { st with id := rsid })
      else (([] : List Ev), st)
    let evDir := if rdir ≠ "" ∧ rdir ≠ st.dir then [Ev.setDir key rdir] else []
    let evPre := Ev.exec st.id st.dir fullPrompt st.useLast ::
      (updSid.1 ++ evDir ++ [Ev.setUseLast key true])
    let par := parseResponseM env sender 1 text rtext updSid.2.id updSid.2.dir
    match par.2.2 with
    | none => evPre ++ par.1
    | some r =>
      let pro := processResponseM env sender par.2.1 r updSid.2.id updSid.2.dir
      match pro.2.2 with
      | some true =>
        evPre ++ par.1 ++ pro.1 ++ continueLoop env sender key 5 pro.2.1 updSid.2
      | _ => evPre ++ par.1 ++ pro.1

/-- `parseDirCommand` from `main.go`: `some (dir, rest)` models
`(dir, rest, true)`. -/
def parseDirCommand (text0 : String) : Option (String × String) :=
  let text := trimStr text0
  let raw :=
    if hasPre text "/cd " then some (trimStr (trimPre text "/cd "))
    else if hasPre text "cd " ∧ ¬ strContains text "\n" then
      some (trimStr (trimPre text "cd "))
    else none
  match raw with
  | none => none
  | some r =>
    if r = "" then some ("", "")
    else
      match splitFirst r "&&" with
      | some (a, b) => some (trimStr a, trimStr b)
      | none => some (r, "")

/-- `handleShell` from `main.go`: run the command via bash with the
normalized current dir; empty combined output falls back to the exit
code; a leading `cd` re-runs with `&& pwd` to capture and persist the new
directory. -/
def handleShell (env : PipeEnv) (text currentDir sender key stateDir : String) :
    List Ev :=
  let cmd := trimStr (trimPre text "!")
  if cmd = "" then []
  else
    let res := env.shell cmd currentDir
    let output0 := trimStr (res.1 ++ "\n" ++ res.2.1)
    let output1 := if output0 = "" then "(code " ++ toString res.2.2 ++ ")" else output0
    if hasPre cmd "cd " then
      let resPwd := env.shell (cmd ++ " && pwd") currentDir
      let newDir := trimStr resPwd.1
      if newDir ≠ "" ∧ newDir ≠ stateDir then
        [Ev.setDir key newDir, Ev.send sender (output1 ++ "\nwd: " ++ newDir)]
      else [Ev.send sender output1]
    else [Ev.send sender output1]

/-- The `/help` reply literal of `handleMessage`. -/
def helpText : String :=
  "Commands:\n/new - Reset session\n/cd <dir> - Change dir\n!cmd - Direct shell exec\n/tools - List tools"

/-- Router short-circuit or LLM gateway (the tail of `handleMessage`
after the quick commands): a router match sends the generated reply and
executes the packet with no backend call; otherwise the LLM path runs. -/
def routeOrLLM (env : PipeEnv) (sender key text : String) (st : SessionState) :
    List Ev :=
  match route text with
  | some packet =>
    Ev.send sender (generateReply packet) ::
      (executePacket env.registry packet sender).1
  | none => llmTurn env sender key text st

/-- `handleMessage` from `main.go`: trim and drop empty input, handle the
quick commands `/new`, `/tools`, `/help`, the `!` shell prefix and the
`/cd` command (which persists the directory and either stops or continues
with the remainder), then route deterministically or enter the LLM
gateway.  The session snapshot `st` is read once up front; `/cd` updates
only the store, so the LLM path still sees the old snapshot directory,
as in the source. -/
def handleMessage (env : PipeEnv) (msg : MsgIn) (st : SessionState) : List Ev :=
  let text := trimStr msg.text
  if text = "" then []
  else
    let key := "telegram:" ++ msg.senderID
    if text = "/new" then
      [Ev.setUseLast key false, Ev.setDir key "", Ev.send msg.senderID "Session reset."]
    else if text = "/tools" then
      [Ev.send msg.senderID (formatToolList env.registry.list)]
    else if text = "/help" then
      [Ev.send msg.senderID helpText]
    else
      let currentDir := env.normalizeCwd st.dir
      if hasPre text "!" then handleShell env text currentDir msg.senderID key st.dir
      else
        match parseDirCommand text with
        | some (dir, rest) =>
          if rest = "" then
            [Ev.setDir key dir, Ev.send msg.senderID ("Directory changed to: " ++ dir)]
          else Ev.setDir key dir :: routeOrLLM env msg.senderID key rest st
        | none => routeOrLLM env msg.senderID key text st

/-- Is an event a backend invocation? -/
def isExecEv : Ev → Bool
  | Ev.exec _ _ _ _ => true
  | _ => false

/-- The `(prompt, continueLast)` arguments of the backend invocations in a
trace, in order. -/
def execList (evs : List Ev) : List (String × Bool) :=
  evs.filterMap fun e =>
    match e with
    | Ev.exec _ _ p u => some (p, u)
    | _ => none

/-- Is an event one of the two turn-aborting error reports (the
`LLM Error` message after a failed backend call, or the critical
invalid-action notification)? -/
def isAbortEv : Ev → Bool
  | Ev.sendLLMError _ _ => true
  | Ev.sendCritical _ => true
  | _ => false

/-! ### Trace shape helper lemmas -/

/-- Tool-loop events are never backend calls nor abort reports (the
crash truncates the trace but emits nothing). -/
theorem execTools_events_benign (reg : Registry) (target : String) :
    ∀ l : List ToolRequest, ∀ e ∈ (execTools reg target l).1,
      isExecEv e = false ∧ isAbortEv e = false := by
  intro l
  induction l with
  | nil =>
    intro e he
    exact absurd he (List.not_mem_nil e)
  | cons req rest ih =>
    intro e he
    unfold execTools at he
    split at he
    · exact ih e he
    · split at he
      · exact absurd he (List.not_mem_nil e)
      · split at he
        · rcases List.mem_cons.mp he with h2 | h2
          · subst h2
            exact ⟨rfl, rfl⟩
          · exact ih e h2
        · exact ih e he

/-- The event list of `executePacket` is the pre-execution status (when
tools were declared) and the tool-loop events, optionally followed by the
summary send. -/
theorem executePacket_fst_shape (reg : Registry) (pkt : Packet) (target : String) :
    (executePacket reg pkt target).1 =
      (if pkt.tools.length > 0 then
        [Ev.sendStatus target ("Status: iniciando " ++ toString pkt.tools.length ++
          " tool(s)...")] else []) ++ (execTools reg target pkt.tools).1 ∨
    (executePacket reg pkt target).1 =
      (if pkt.tools.length > 0 then
        [Ev.sendStatus target ("Status: iniciando " ++ toString pkt.tools.length ++
          " tool(s)...")] else []) ++ (execTools reg target pkt.tools).1 ++
        [Ev.sendStatus target (summaryString (execTools reg target pkt.tools).2.1)] := by
  unfold executePacket
  by_cases hcr : (execTools reg target pkt.tools).2.2 = true
  · left
    simp only [if_pos hcr]
  · by_cases hn : (execTools reg target pkt.tools).2.1.length = 0
    · left
      simp only [if_neg hcr, if_pos hn]
    · right
      simp only [if_neg hcr, if_neg hn]

/-- `executePacket` events are never backend calls nor abort reports. -/
theorem executePacket_events_benign (reg : Registry) (pkt : Packet) (target : String) :
    ∀ e ∈ (executePacket reg pkt target).1,
      isExecEv e = false ∧ isAbortEv e = false := by
  intro e he
  have hpre : ∀ x ∈ (if pkt.tools.length > 0 then
      [Ev.sendStatus target ("Status: iniciando " ++ toString pkt.tools.length ++
        " tool(s)...")] else []), isExecEv x = false ∧ isAbortEv x = false := by
    intro x hx
    by_cases hl : pkt.tools.length > 0
    · rw [if_pos hl] at hx
      have hx2 := List.mem_singleton.mp hx
      subst hx2
      exact ⟨rfl, rfl⟩
    · rw [if_neg hl] at hx
      exact absurd hx (List.not_mem_nil x)
  rcases executePacket_fst_shape reg pkt target with hs | hs
  · rw [hs] at he
    rcases List.mem_append.mp he with hx | hx
    · exact hpre e hx
    · exact execTools_events_benign reg target pkt.tools e hx
  · rw [hs] at he
    rcases List.mem_append.mp he with hx | hx
    · rcases List.mem_append.mp hx with hy | hy
      · exact hpre e hy
      · exact execTools_events_benign reg target pkt.tools e hy
    · have hx2 := List.mem_singleton.mp hx
      subst hx2
      exact ⟨rfl, rfl⟩

/-- `processPacketAction` events are never backend calls nor abort
reports. -/
theorem processPacketAction_events_benign (env : PipeEnv) (sender : String)
    (p : Packet) :
    ∀ e ∈ (processPacketAction env sender p).1,
      isExecEv e = false ∧ isAbortEv e = false := by
  intro e he
  unfold processPacketAction at he
  by_cases hact : p.action = actionListReminders
  · rw [if_pos hact] at he
    split at he
    · rcases List.mem_cons.mp he with he2 | he2
      · subst he2; exact ⟨rfl, rfl⟩
      · have he3 := List.mem_singleton.mp he2
        subst he3; exact ⟨rfl, rfl⟩
    · rcases List.mem_cons.mp he with he2 | he2
      · subst he2; exact ⟨rfl, rfl⟩
      · have he3 := List.mem_singleton.mp he2
        subst he3; exact ⟨rfl, rfl⟩
  · rw [if_neg hact] at he
    exact executePacket_events_benign env.registry p sender e he

/-- A trace without backend-call events has an empty `execList`. -/
theorem execList_eq_nil (l : List Ev) (h : ∀ e ∈ l, isExecEv e = false) :
    execList l = [] := by
  induction l with
  | nil => rfl
  | cons a t ih =>
    have ha : isExecEv a = false := h a (List.mem_cons_self a t)
    have ht : execList t = [] := ih (fun e he => h e (List.mem_cons_of_mem a he))
    unfold execList at ht ⊢
    rw [List.filterMap_cons]
    cases a <;> simp_all [isExecEv]

/-- `execList` distributes over append. -/
theorem execList_append (a b : List Ev) :
    execList (a ++ b) = execList a ++ execList b :=
  List.filterMap_append a b _

/-! ### Claim C4 — decode failure: one repair call, then raw passthrough -/

/-- C4: when the raw backend text fails to decode, `parseResponse` issues
exactly one repair call — continuation disabled, prompt containing the
original input, the malformed output and the decode error — and when the
repair output fails to decode as well, the raw text is sent verbatim to
the user and the turn ends with no structured action (`none`). -/
theorem c4_parse_repair (env : PipeEnv) (sender : String) (k : Nat)
    (prompt raw sid dir : String)
    (hdec : decodeResponseText env.jparse raw = none) :
    ((parseResponseM env sender k prompt raw sid dir).1.filter isExecEv =
      [Ev.exec sid dir (parseRepairPrompt prompt raw (env.jerr raw)) false]) ∧
    (∃ a b, parseRepairPrompt prompt raw (env.jerr raw) = a ++ prompt ++ b) ∧
    (∃ a b, parseRepairPrompt prompt raw (env.jerr raw) = a ++ raw ++ b) ∧
    (∃ a b, parseRepairPrompt prompt raw (env.jerr raw) = a ++ env.jerr raw ++ b) ∧
    (∀ t s d, env.oracle k = ExecOut.ok t s d →
      decodeResponseText env.jparse t = none →
      parseResponseM env sender k prompt raw sid dir =
        ([Ev.exec sid dir (parseRepairPrompt prompt raw (env.jerr raw)) false,
          Ev.send sender raw], k + 1, none)) := by
  refine ⟨?_, ?_, ?_, ?_, ?_⟩
  · unfold parseResponseM
    rw [hdec]
    cases env.oracle k with
    | fail e => simp [isExecEv]
    | ok t s d =>
      cases hdt : decodeResponseText env.jparse t with
      | none => simp only [hdt]; simp [isExecEv]
      | some r => simp only [hdt]; simp [isExecEv]
  · exact ⟨"System: You returned invalid JSON. Fix it strictly following the schema.\nInput was: ",
      "\nOutput was: " ++ raw ++ "\nError: " ++ env.jerr raw ++ "\nReturn JSON only.",
      by unfold parseRepairPrompt; simp [String.append_assoc]⟩
  · exact ⟨"System: You returned invalid JSON. Fix it strictly following the schema.\nInput was: " ++
      prompt ++ "\nOutput was: ",
      "\nError: " ++ env.jerr raw ++ "\nReturn JSON only.",
      by unfold parseRepairPrompt; simp [String.append_assoc]⟩
  · exact ⟨"System: You returned invalid JSON. Fix it strictly following the schema.\nInput was: " ++
      prompt ++ "\nOutput was: " ++ raw ++ "\nError: ",
      "\nReturn JSON only.",
      by unfold parseRepairPrompt; simp [String.append_assoc]⟩
  · intro t s d hok hdec2
    unfold parseResponseM
    rw [hdec, hok]
    simp only [hdec2]

/-- C4 witness: a parser that rejects everything; the repair call happens
once and its output also fails, so the raw text is passed through. -/
theorem c4_parse_repair_witness :
    parseResponseM
      ⟨fun _ => none, fun _ => "syntax error",
       fun _ => ExecOut.ok "still bad" "" "", ⟨[], []⟩, Except.ok [], none, "",
       id, fun _ _ => ("", "", 0)⟩
      "42" 0 "hi" "garbage" "s1" "/tmp" =
      ([Ev.exec "s1" "/tmp" (parseRepairPrompt "hi" "garbage" "syntax error") false,
        Ev.send "42" "garbage"], 1, none) :=
  (c4_parse_repair
    ⟨fun _ => none, fun _ => "syntax error",
     fun _ => ExecOut.ok "still bad" "" "", ⟨[], []⟩, Except.ok [], none, "",
     id, fun _ _ => ("", "", 0)⟩
    "42" 0 "hi" "garbage" "s1" "/tmp" rfl).2.2.2.2 "still bad" "" "" rfl rfl

/-- A trace whose events are all non-backend-calls filters to nothing. -/
theorem filter_exec_nil (l : List Ev) (h : ∀ e ∈ l, isExecEv e = false) :
    l.filter isExecEv = [] := by
  induction l with
  | nil => rfl
  | cons a t ih =>
    have ha := h a (List.mem_cons_self a t)
    rw [List.filter_cons, ha]
    exact ih (fun e he => h e (List.mem_cons_of_mem a he))

/-- The optional reply send contributes no backend-call event. -/
theorem filter_exec_reply (sender : String) (r : Response) :
    (if r.reply ≠ "" then [Ev.send sender r.reply] else []).filter isExecEv = [] := by
  by_cases h : r.reply = "" <;> simp [h, isExecEv]

/-! ### Claim C5 — validation failure: one semantic repair, then stop -/

/-- C5: on a response whose packet fails validation, `processResponse`
issues exactly one semantic-repair call (continuation disabled) whose
prompt carries the validation error and the enumerated allowed actions;
the repair output is decoded and re-validated, and a second validation
failure notifies the user via the critical message and returns false —
the single `exec` in the trace shows there is no third attempt. -/
theorem c5_semantic_repair (env : PipeEnv) (sender : String) (k : Nat)
    (r : Response) (sid dir : String) (p : Packet) (verr : String)
    (hir : r.ir = some p) (hval : p.validate = some verr) :
    ((processResponseM env sender k r sid dir).1.filter isExecEv =
      [Ev.exec sid dir (semanticRepairPrompt verr) false]) ∧
    (∃ a b, semanticRepairPrompt verr = a ++ verr ++ b) ∧
    (∃ a b, semanticRepairPrompt verr =
      a ++ "Allowed actions: act_now, schedule, ask, defer." ++ b) ∧
    (∀ t s d r2 p2, env.oracle k = ExecOut.ok t s d →
      decodeResponseTextInto env.jparse r t = some r2 →
      r2.ir = some p2 → (p2.validate).isSome →
      Ev.sendCritical sender ∈ (processResponseM env sender k r sid dir).1 ∧
      (processResponseM env sender k r sid dir).2.2 = some false) := by
  refine ⟨?_, ?_, ?_, ?_⟩
  · unfold processResponseM
    simp only [hir, hval]
    cases hok : env.oracle k with
    | fail e =>
      rw [List.filter_append, filter_exec_reply]
      simp [isExecEv]
    | ok t s d =>
      cases hdt : decodeResponseTextInto env.jparse r t with
      | none =>
        simp only [hdt]
        rw [List.filter_append, filter_exec_reply]
        simp [isExecEv]
      | some r2 =>
        simp only [hdt]
        cases hri : r2.ir with
        | none =>
          simp only [hri]
          rw [List.filter_append, filter_exec_reply]
          simp [isExecEv]
        | some p2 =>
          simp only [hri]
          cases hv2 : p2.validate with
          | some e2 =>
            simp only [hv2]
            rw [List.filter_append, filter_exec_reply]
            simp [isExecEv]
          | none =>
            simp only [hv2]
            rw [List.filter_append, List.filter_append, filter_exec_reply,
              filter_exec_nil _ (fun e he =>
                (processPacketAction_events_benign env sender p2 e he).1)]
            simp [isExecEv]
  · exact ⟨"System: IR validation failed: ",
      ". \nYou must fix the JSON. Allowed actions: act_now, schedule, ask, defer.\nReturn JSON only.",
      by unfold semanticRepairPrompt; simp [String.append_assoc]⟩
  · refine ⟨"System: IR validation failed: " ++ verr ++ ". \nYou must fix the JSON. ",
      "\nReturn JSON only.", ?_⟩
    unfold semanticRepairPrompt
    have h1 : (". \nYou must fix the JSON. Allowed actions: act_now, schedule, ask, defer.\nReturn JSON only." : String) =
        ". \nYou must fix the JSON. " ++ "Allowed actions: act_now, schedule, ask, defer." ++ "\nReturn JSON only." := by
      rfl
    rw [h1]
    simp [String.append_assoc]
  · intro t s d r2 p2 hok hdt hri hv2
    obtain ⟨e2, he2⟩ := Option.isSome_iff_exists.mp hv2
    unfold processResponseM
    simp only [hir, hval, hok, hdt, hri, he2]
    constructor
    · exact List.mem_append.mpr (Or.inr (by simp))
    · trivial

/-- C5 witness: a packet with action `fly` fails validation; the repair
output decodes but carries action `dance`, invalid again, so the critical
notification is sent and the result is false. -/
theorem c5_semantic_repair_witness :
    Ev.sendCritical "42" ∈
      (processResponseM
        ⟨fun s => if s = "REPAIR" then
            some (JVal.obj [("ir", JVal.obj [("action", JVal.str "dance")])]) else none,
         fun _ => "", fun _ => ExecOut.ok "REPAIR" "" "", ⟨[], []⟩, Except.ok [],
         none, "", id, fun _ _ => ("", "", 0)⟩
        "42" 0 ⟨"", false, some ⟨"fly", "", "", "", [], 0⟩⟩ "s1" "/tmp").1 ∧
    (processResponseM
        ⟨fun s => if s = "REPAIR" then
            some (JVal.obj [("ir", JVal.obj [("action", JVal.str "dance")])]) else none,
         fun _ => "", fun _ => ExecOut.ok "REPAIR" "" "", ⟨[], []⟩, Except.ok [],
         none, "", id, fun _ _ => ("", "", 0)⟩
        "42" 0 ⟨"", false, some ⟨"fly", "", "", "", [], 0⟩⟩ "s1" "/tmp").2.2 = some false :=
  (c5_semantic_repair
    ⟨fun s => if s = "REPAIR" then
        some (JVal.obj [("ir", JVal.obj [("action", JVal.str "dance")])]) else none,
     fun _ => "", fun _ => ExecOut.ok "REPAIR" "" "", ⟨[], []⟩, Except.ok [],
     none, "", id, fun _ _ => ("", "", 0)⟩
    "42" 0 ⟨"", false, some ⟨"fly", "", "", "", [], 0⟩⟩ "s1" "/tmp"
    ⟨"fly", "", "", "", [], 0⟩ "invalid action: fly" rfl rfl).2.2.2
    "REPAIR" "" "" ⟨"", false, some ⟨"dance", "", "", "", [], 0⟩⟩
    ⟨"dance", "", "", "", [], 0⟩ rfl rfl rfl rfl

/-! ### Claim C2 — the `list_reminders` special action -/

/-- C2 counterexample scaffolding: a JSON parser recognizing the two
backend texts of the scenario. -/
def c2jparse : String → Option JVal := fun s =>
  if s = "RESP1" then
    some (JVal.obj [("needProcees", JVal.bool true),
      ("ir", JVal.obj [("action", JVal.str "list_reminders"),
        ("risk", JVal.str "none")])])
  else if s = "RESP2" then
    some (JVal.obj [("needProcees", JVal.bool false)])
  else none

/-- C2 counterexample scaffolding: the backend answers `RESP1` (a valid
`list_reminders` packet with the continuation flag set) to the first call
and `RESP2` (no packet, flag clear) to every later call. -/
def c2env : PipeEnv :=
  ⟨c2jparse, fun _ => "",
   fun k => if k = 0 then ExecOut.ok "RESP1" "" "" else ExecOut.ok "RESP2" "" "",
   ⟨[], []⟩, Except.ok ["- [OneShot] x"], none, "", id, fun _ _ => ("", "", 0)⟩

/-- C2 counterexample: the initial backend text decodes to a response
whose packet has action `list_reminders` and whose continuation flag is
true, and the turn *does* perform a continuation invocation (prompt
`continue`) afterwards — `processResponse` returns `NeedProcess` for this
action instead of unconditionally stopping. -/
theorem c2_counterexample :
    ((decodeResponseText c2jparse "RESP1").map
        (fun r => (r.ir.map Packet.action, r.needProcess)) =
      some (some "list_reminders", true)) ∧
    execList (handleMessage c2env ⟨"42", "hello"⟩ ⟨"", "", true⟩) =
      [("hello", true), ("continue", true)] := by
  exact ⟨rfl, rfl⟩

/-- C2 as amended: with a validated `list_reminders` packet,
`processResponse` bypasses tool execution, queries the scheduler listing
and sends the joined list; it then returns the response's continuation
flag, so the turn continues exactly when `NeedProcess` is true rather
than never. -/
theorem c2_list_reminders_flag (env : PipeEnv) (sender : String) (k : Nat)
    (r : Response) (sid dir : String) (p : Packet) (jobs : List String)
    (hir : r.ir = some p) (hact : p.action = actionListReminders)
    (hval : p.validate = none) (hjobs : env.listJobsRes = Except.ok jobs) :
    processResponseM env sender k r sid dir =
      ((if r.reply ≠ "" then [Ev.send sender r.reply] else []) ++
        [Ev.listJobsCall, Ev.send sender (String.intercalate "\n" jobs)],
       k, some r.needProcess) := by
  unfold processResponseM
  simp only [hir, hval]
  unfold processPacketAction
  rw [if_pos hact, hjobs]
  rfl

/-- C2 amended witness: a concrete validated `list_reminders` response
with the flag set; the trace is the reply send, the listing query and the
listing send, and the returned flag is true. -/
theorem c2_list_reminders_flag_witness :
    processResponseM
      ⟨fun _ => none, fun _ => "", fun _ => ExecOut.fail "unused", ⟨[], []⟩,
       Except.ok ["- [Cron] daily"], none, "", id, fun _ _ => ("", "", 0)⟩
      "42" 0 ⟨"hi", true, some ⟨"list_reminders", "", "none", "", [], 0⟩⟩ "s" "/d" =
      ([Ev.send "42" "hi", Ev.listJobsCall, Ev.send "42" "- [Cron] daily"],
       0, some true) :=
  (c2_list_reminders_flag
    ⟨fun _ => none, fun _ => "", fun _ => ExecOut.fail "unused", ⟨[], []⟩,
     Except.ok ["- [Cron] daily"], none, "", id, fun _ _ => ("", "", 0)⟩
    "42" 0 ⟨"hi", true, some ⟨"list_reminders", "", "none", "", [], 0⟩⟩ "s" "/d"
    ⟨"list_reminders", "", "none", "", [], 0⟩ ["- [Cron] daily"]
    rfl rfl rfl rfl).trans (by rfl)

/-! ### Claim C3 — continuation cap of 5 -/

/-- A backend call slot is "good" when the call succeeds and its text
decodes into a response with the continuation flag set and a packet that
is absent, or valid and crash-free under `processPacketAction` (so
neither repair path fires and the nil-map panic of the injection preamble
does not kill the turn). -/
def GoodTurn (env : PipeEnv) (sender : String) (k : Nat) : Prop :=
  ∃ t s d, env.oracle k = ExecOut.ok t s d ∧
    ∃ r, decodeResponseText env.jparse t = some r ∧ r.needProcess = true ∧
      (r.ir = none ∨ ∃ p, r.ir = some p ∧ p.validate = none ∧
        (processPacketAction env sender p).2 = false)

/-- The optional reply send is neither a backend call nor an abort. -/
theorem reply_events_benign (sender : String) (r : Response) :
    ∀ e ∈ (if r.reply ≠ "" then [Ev.send sender r.reply] else []),
      isExecEv e = false ∧ isAbortEv e = false := by
  intro e he
  by_cases h : r.reply = ""
  · rw [if_neg (fun hc => hc h)] at he
    exact absurd he (List.not_mem_nil e)
  · rw [if_pos h] at he
    have he2 := List.mem_singleton.mp he
    subst he2
    exact ⟨rfl, rfl⟩

/-- `processResponse` on a repair-free response: result is the response's
continuation flag, the counter is untouched, and the trace holds no
backend call and no abort report. -/
theorem processResponseM_good (env : PipeEnv) (sender : String) (k : Nat)
    (r : Response) (sid dir : String)
    (h : r.ir = none ∨ ∃ p, r.ir = some p ∧ p.validate = none ∧
      (processPacketAction env sender p).2 = false) :
    (processResponseM env sender k r sid dir).2 = (k, some r.needProcess) ∧
    (∀ e ∈ (processResponseM env sender k r sid dir).1,
      isExecEv e = false ∧ isAbortEv e = false) := by
  rcases h with hnone | ⟨p, hp, hv, hpa⟩
  · unfold processResponseM
    simp only [hnone]
    exact ⟨by trivial, reply_events_benign sender r⟩
  · unfold processResponseM
    simp only [hp, hv, hpa]
    refine ⟨by simp, ?_⟩
    intro e he
    rcases List.mem_append.mp he with h1 | h1
    · exact reply_events_benign sender r e h1
    · exact processPacketAction_events_benign env sender p e h1

/-- Session-store updates of the continuation loop are neither backend
calls nor abort reports. -/
theorem sessionUpdateLoop_benign (key : String) (st : SessionState)
    (rsid rdir : String) :
    ∀ e ∈ (sessionUpdateLoop key st rsid rdir).1,
      isExecEv e = false ∧ isAbortEv e = false := by
  intro e he
  unfold sessionUpdateLoop at he
  rcases List.mem_append.mp he with h1 | h1
  · by_cases hc : rsid ≠ "" ∧ rsid ≠ st.id
    · rw [if_pos hc] at h1
      have := List.mem_singleton.mp h1
      subst this
      exact ⟨rfl, rfl⟩
    · rw [if_neg hc] at h1
      exact absurd h1 (List.not_mem_nil e)
  · by_cases hc : rsid ≠ "" ∧ rsid ≠ st.id
    · simp only [if_pos hc] at h1
      by_cases hd : rdir ≠ "" ∧ rdir ≠ ({ st with id := rsid } : SessionState).dir
      · rw [if_pos hd] at h1
        have := List.mem_singleton.mp h1
        subst this
        exact ⟨rfl, rfl⟩
      · rw [if_neg hd] at h1
        exact absurd h1 (List.not_mem_nil e)
    · simp only [if_neg hc] at h1
      by_cases hd : rdir ≠ "" ∧ rdir ≠ st.dir
      · rw [if_pos hd] at h1
        have := List.mem_singleton.mp h1
        subst this
        exact ⟨rfl, rfl⟩
      · rw [if_neg hd] at h1
        exact absurd h1 (List.not_mem_nil e)

/-- `execList` of a trace headed by a backend call. -/
theorem execList_cons_exec (a b c : String) (u : Bool) (l : List Ev) :
    execList (Ev.exec a b c u :: l) = (c, u) :: execList l := by
  simp [execList]

/-- Under an everywhere-good oracle, the continuation loop performs
exactly `fuel` further backend calls, all with the synthetic prompt
`continue`, and reports no error. -/
theorem continueLoop_good (env : PipeEnv) (sender key : String)
    (hgood : ∀ j, GoodTurn env sender j) :
    ∀ fuel k st,
      execList (continueLoop env sender key fuel k st) =
        List.replicate fuel ("continue", true) ∧
      (∀ e ∈ continueLoop env sender key fuel k st, isAbortEv e = false) := by
  intro fuel
  induction fuel with
  | zero =>
    intro k st
    exact ⟨rfl, fun e he => absurd he (List.not_mem_nil e)⟩
  | succ n ih =>
    intro k st
    obtain ⟨t, s, d, hok, r, hdec, hnp, hgr⟩ := hgood k
    have hpar : ∀ sid dir, parseResponseM env sender (k + 1) "continue" t sid dir =
        ([], k + 1, some r) := by
      intro sid dir
      unfold parseResponseM
      rw [hdec]
    have hpro := fun sid dir =>
      processResponseM_good env sender (k + 1) r sid dir hgr
    have hpro22 : ∀ sid dir,
        (processResponseM env sender (k + 1) r sid dir).2.2 = some true := by
      intro sid dir
      rw [(hpro sid dir).1, hnp]
    have hpro21 : ∀ sid dir,
        (processResponseM env sender (k + 1) r sid dir).2.1 = k + 1 := by
      intro sid dir
      rw [(hpro sid dir).1]
    unfold continueLoop
    simp only [hok, hpar, hpro22]
    have hbody : ∀ e ∈ ((sessionUpdateLoop key st s d).1 ++ [] ++
        (processResponseM env sender (k + 1) r (sessionUpdateLoop key st s d).2.id
          (sessionUpdateLoop key st s d).2.dir).1),
        isExecEv e = false ∧ isAbortEv e = false := by
      intro e he
      rcases List.mem_append.mp he with h1 | h1
      · rcases List.mem_append.mp h1 with h2 | h2
        · exact sessionUpdateLoop_benign key st s d e h2
        · exact absurd h2 (List.not_mem_nil e)
      · exact (hpro _ _).2 e h1
    constructor
    · rw [execList_append, execList_cons_exec, List.replicate_succ,
        execList_eq_nil _ (fun e he => (hbody e he).1), hpro21]
      simp [(ih (k + 1) (sessionUpdateLoop key st s d).2).1]
    · intro e he
      rcases List.mem_append.mp he with h1 | h1
      · rcases List.mem_cons.mp h1 with h2 | h2
        · subst h2; rfl
        · exact (hbody e h2).2
      · rw [hpro21] at h1
        exact (ih (k + 1) (sessionUpdateLoop key st s d).2).2 e h1

/-- C3: when the backend succeeds on every call of the turn and each
response carries the continuation flag true (with a repair-free packet),
the pipeline performs the initial call followed by exactly 5 continuation
invocations with the synthetic prompt `continue`, and then stops without
reporting an error (no `LLM Error` and no critical notification appears
in the trace). -/
theorem c3_continuation_cap (env : PipeEnv) (sender key text : String)
    (st : SessionState) (hgood : ∀ j, GoodTurn env sender j) :
    execList (llmTurn env sender key text st) =
      (mkFullPrompt env sender text st.useLast, st.useLast) ::
        List.replicate 5 ("continue", true) ∧
    (∀ e ∈ llmTurn env sender key text st, isAbortEv e = false) := by
  obtain ⟨t, s, d, hok, r, hdec, hnp, hgr⟩ := hgood 0
  have hpar : ∀ sid dir, parseResponseM env sender 1 text t sid dir =
      ([], 1, some r) := by
    intro sid dir
    unfold parseResponseM
    rw [hdec]
  have hpro := fun sid dir => processResponseM_good env sender 1 r sid dir hgr
  have hpro22 : ∀ sid dir,
      (processResponseM env sender 1 r sid dir).2.2 = some true := by
    intro sid dir
    rw [(hpro sid dir).1, hnp]
  have hpro21 : ∀ sid dir,
      (processResponseM env sender 1 r sid dir).2.1 = 1 := by
    intro sid dir
    rw [(hpro sid dir).1]
  unfold llmTurn
  simp only [hok, hpar, hpro22]
  have hupd : ∀ e ∈ (if s ≠ "" ∧ s ≠ st.id then
      ([Ev.setSessionID key s], { st with id := s })
      else (([] : List Ev), st)).1 ++
      (if d ≠ "" ∧ d ≠ st.dir then [Ev.setDir key d] else []) ++
      [Ev.setUseLast key true],
      isExecEv e = false ∧ isAbortEv e = false := by
    intro e he
    rcases List.mem_append.mp he with h1 | h1
    · rcases List.mem_append.mp h1 with h2 | h2
      · by_cases hc : s ≠ "" ∧ s ≠ st.id
        · rw [if_pos hc] at h2
          have := List.mem_singleton.mp h2
          subst this; exact ⟨rfl, rfl⟩
        · rw [if_neg hc] at h2
          exact absurd h2 (List.not_mem_nil e)
      · by_cases hc : d ≠ "" ∧ d ≠ st.dir
        · rw [if_pos hc] at h2
          have := List.mem_singleton.mp h2
          subst this; exact ⟨rfl, rfl⟩
        · rw [if_neg hc] at h2
          exact absurd h2 (List.not_mem_nil e)
    · have := List.mem_singleton.mp h1
      subst this; exact ⟨rfl, rfl⟩
  set st1 := (if s ≠ "" ∧ s ≠ st.id then
      ([Ev.setSessionID key s], { st with id := s })
      else (([] : List Ev), st)).2 with hst1
  have hloop := continueLoop_good env sender key hgood 5 1 st1
  constructor
  · rw [execList_append, execList_append, execList_append, execList_cons_exec,
      execList_eq_nil _ (fun e he => (hupd e he).1), hpro21,
      execList_eq_nil _ (fun e he => ((hpro st1.id st1.dir).2 e he).1), hloop.1]
    all_goals simp [execList]
  · intro e he
    rcases List.mem_append.mp he with h1 | h1
    · rcases List.mem_append.mp h1 with h2 | h2
      · rcases List.mem_append.mp h2 with h3 | h3
        · rcases List.mem_cons.mp h3 with h4 | h4
          · subst h4; rfl
          · exact (hupd e h4).2
        · exact absurd h3 (List.not_mem_nil e)
      · exact ((hpro st1.id st1.dir).2 e h2).2
    · rw [hpro21] at h1
      exact hloop.2 e h1

/-- C3 witness: a backend that always succeeds with a flag-true,
packet-free response; the turn performs the initial call and exactly 5
`continue` invocations. -/
theorem c3_continuation_cap_witness :
    execList (llmTurn
      ⟨fun s => if s = "R" then some (JVal.obj [("needProcees", JVal.bool true)])
        else none,
       fun _ => "", fun _ => ExecOut.ok "R" "" "", ⟨[], []⟩, Except.ok [], none,
       "", id, fun _ _ => ("", "", 0)⟩
      "42" "telegram:42" "hi" ⟨"", "", true⟩) =
      ("hi", true) :: List.replicate 5 ("continue", true) :=
  (c3_continuation_cap
    ⟨fun s => if s = "R" then some (JVal.obj [("needProcees", JVal.bool true)])
      else none,
     fun _ => "", fun _ => ExecOut.ok "R" "" "", ⟨[], []⟩, Except.ok [], none,
     "", id, fun _ _ => ("", "", 0)⟩
    "42" "telegram:42" "hi" ⟨"", "", true⟩
    (fun _ => ⟨"R", "", "", rfl, ⟨"", true, none⟩, rfl, rfl, Or.inl rfl⟩)).1
